import Mathlib

/-!
Shallow embedding of the multi-pass upscale orchestrator of `upscale_app.py`:
step planner, per-image identity store, pass executor (submit / poll /
download), and the final resize step, together with theorems settling the
specification's claims about them.
-/

/-! ### Step planner

Source (module top level):
`width_scale = TARGET_SIZE[0] / orig_img.width`,
`height_scale = TARGET_SIZE[1] / orig_img.height`,
`scale_factor = max(width_scale, height_scale)`,
`n_steps = math.ceil(math.log(scale_factor, API_SCALE))`.
Python floats are idealised as real numbers; `math.ceil` is `Int.ceil`.
Note the source applies no flooring at zero to `n_steps`. -/

noncomputable def scale_factor (sourceW sourceH targetW targetH : ℝ) : ℝ :=
  max (targetW / sourceW) (targetH / sourceH)

noncomputable def n_steps (sourceW sourceH targetW targetH perCallFactor : ℝ) : ℤ :=
  ⌈Real.logb perCallFactor (scale_factor sourceW sourceH targetW targetH)⌉

/-! ### Identity store

Source: `get_or_create_client_id_for_image(image_name)` (lines 20-40).
The persisted JSON file is modelled by `MapFile`: a file that is missing, a
zero-byte file, a file `json.load` rejects (all three are turned into the
empty mapping by the source's `os.path.exists` check and `try/except`), or a
stored JSON object of string keys and string values — the only shape this
program ever writes.  `secrets.token_hex(16)` is modelled by `token_hex`
applied to the 16 random bytes it draws. -/

def hexDigitChar (n : ℕ) : Char :=
  if n < 10 then Char.ofNat (48 + n) else Char.ofNat (87 + n)

def byteToHexChars (b : ℕ) : List Char :=
  [hexDigitChar (b / 16 % 16), hexDigitChar (b % 16)]

def token_hex (bytes : List ℕ) : String :=
  String.mk ((bytes.map byteToHexChars).flatten)

def isLowerHexChar (c : Char) : Bool :=
  (decide ('0' ≤ c) && decide (c ≤ '9')) || (decide ('a' ≤ c) && decide (c ≤ 'f'))

/-- The spec's pattern `^[0-9a-f]{32}$` as a Boolean predicate on strings. -/
def isHex32 (s : String) : Bool :=
  (s.length == 32) && s.data.all isLowerHexChar

inductive MapFile where
  | missing : MapFile
  | emptyFile : MapFile
  | corrupt : MapFile
  | stored : List (String × String) → MapFile
deriving DecidableEq

/-- Lines 24-31: a missing file, and a file `json.load` raises on (a
zero-byte file or corrupt JSON), all yield the empty mapping. -/
def loadMapping : MapFile → List (String × String)
  | .stored m => m
  | _ => []

/-- Python `mapping[image_name]` lookup / `image_name in mapping` membership
on the JSON object, keys being unique. -/
def lookupKey : List (String × String) → String → Option String
  | [], _ => none
  | p :: t, k => if p.1 = k then some p.2 else lookupKey t k

/-- Python `mapping[image_name] = client_id`: replaces the value in place if
the key is present, otherwise appends the new entry. -/
def dictInsert : List (String × String) → String → String → List (String × String)
  | [], k, v => [(k, v)]
  | p :: t, k, v => if p.1 = k then (k, v) :: t else p :: dictInsert t k v

/-- Lines 20-40: load the mapping; if the name maps to a value of length 32
return it with no write; otherwise generate `token_hex` of 16 fresh bytes,
store it and write the whole mapping back.  Returns the client id together
with the resulting file state. -/
def get_or_create_client_id_for_image (file : MapFile) (freshBytes : List ℕ)
    (image_name : String) : String × MapFile :=
  match lookupKey (loadMapping file) image_name with
  | some v =>
    if v.length = 32 then (v, file)
    else
      (token_hex freshBytes,
        .stored (dictInsert (loadMapping file) image_name (token_hex freshBytes)))
  | none =>
    (token_hex freshBytes,
      .stored (dictInsert (loadMapping file) image_name (token_hex freshBytes)))

/-! ### Pass executor

Source, lines 87-115 (body of `for attempt in range(n_steps)`): one
submit / poll / download cycle.  `get_uploaded_images(client_id)` returns
`(pending, completed, other)`; a completed entry is either a bare URL string
or a JSON record; line 101 extracts
`completed[-1]["url"] if isinstance(completed[-1], dict) and "url" in completed[-1] else completed[-1]`.
`requests.get(upscaled_url)` is modelled by an abstract `download` function
whose response carries a status flag and a byte payload; the source never
inspects the status. -/

inductive CompletedItem where
  | str : String → CompletedItem
  | obj : List (String × String) → CompletedItem
deriving DecidableEq

inductive UrlVal where
  | strUrl : String → UrlVal
  | dictVal : List (String × String) → UrlVal
deriving DecidableEq

/-- Line 101: a record with a `url` field and a bare string both yield the
URL string; a record without one falls through as the raw dict. -/
def extractUrl : CompletedItem → UrlVal
  | .str s => .strUrl s
  | .obj fields =>
    match lookupKey fields "url" with
    | some u => .strUrl u
    | none => .dictVal fields

structure DownloadResponse where
  statusOk : Bool
  content : List ℕ
deriving DecidableEq

inductive PassOutcome where
  | success : List ℕ → PassOutcome
  | stopped : PassOutcome
  | crash : PassOutcome
deriving DecidableEq

/-- Lines 97-104: the poll loop `for wait_idx in range(60)`, breaking at the
first poll whose completed list is non-empty (`if completed:`); `none` when
the 60-attempt budget is exhausted. -/
def firstNonEmpty (polls : ℕ → List CompletedItem) : ℕ → ℕ → Option ℕ
  | 0, _ => none
  | budget + 1, j =>
    if (polls j).isEmpty then firstNonEmpty polls budget (j + 1) else some j

def findPollIdx (polls : ℕ → List CompletedItem) : Option ℕ :=
  firstNonEmpty polls 60 0

/-- One pass: poll up to 60 times; on the first non-empty completed list take
the last entry's URL; `if not upscaled_url: st.stop()` (lines 105-107) is the
`.stopped` outcome — reached both on timeout and on a Python-falsy URL value
(empty string, empty dict); a non-empty dict reaching `requests.get` raises
(`.crash`); otherwise the response's content is written unconditionally and
the pass succeeds — the source checks no status. -/
def runPass (polls : ℕ → List CompletedItem)
    (download : String → DownloadResponse) : PassOutcome :=
  match findPollIdx polls with
  | none => .stopped
  | some j =>
    match (polls j).getLast? with
    | none => .stopped
    | some item =>
      match extractUrl item with
      | .strUrl s => if s = "" then .stopped else .success (download s).content
      | .dictVal d => if d.isEmpty then .stopped else .crash

/-! ### Orchestrator and final resize

Source, lines 87-125: `current_path = input_path`;
`for attempt in range(n_steps):` run one pass, chaining
`current_path = upscaled_path` with
`upscaled_path = f"upscaled_{attempt+1}_{uploaded_file.name}"`;
after the loop, `Image.open(current_path).resize(TARGET_SIZE, Image.LANCZOS)`
saved to `final_path = f"final_upscaled_{uploaded_file.name}"` with
`dpi=TARGET_DPI` = (300, 300); PIL selects the encoder from `final_path`'s
extension, i.e. from the originally uploaded file name's extension. -/

structure Env where
  polls : ℕ → ℕ → List CompletedItem
  download : String → DownloadResponse

structure PassRecord where
  passIndex : ℕ
  inputPath : String
  outputPath : String
deriving DecidableEq

inductive ResampleFilter where
  | lanczos : ResampleFilter
  | bilinear : ResampleFilter
  | nearest : ResampleFilter
deriving DecidableEq

inductive ImgFormat where
  | jpeg : ImgFormat
  | png : ImgFormat
  | other : ImgFormat
deriving DecidableEq

/-- PIL's choice of encoder from the saved path's extension (the uploader
restricts names to `.jpg` / `.jpeg` / `.png`). -/
def inferFormat (path : String) : ImgFormat :=
  if (".png".data).isSuffixOf path.data then .png
  else if (".jpg".data).isSuffixOf path.data || (".jpeg".data).isSuffixOf path.data
    then .jpeg
  else .other

def isLossyFormat : ImgFormat → Bool
  | .jpeg => true
  | _ => false

structure SavedImage where
  sourcePath : String
  width : ℕ
  height : ℕ
  resample : ResampleFilter
  dpi : ℕ × ℕ
  savedPath : String
  format : ImgFormat
deriving DecidableEq

/-- Lines 121-125: the final local resize of the image at `current` to the
exact target size with `Image.LANCZOS`, saved with `dpi=(300, 300)` to
`final_upscaled_<name>`. -/
def localResize (current : String) (name : String) (targetSize : ℕ × ℕ) :
    SavedImage :=
  { sourcePath := current
    width := targetSize.1
    height := targetSize.2
    resample := .lanczos
    dpi := (300, 300)
    savedPath := "final_upscaled_" ++ name
    format := inferFormat ("final_upscaled_" ++ name) }

inductive RunOutcome where
  | finished : List PassRecord → SavedImage → RunOutcome
  | failed : List PassRecord → ℕ → RunOutcome
  | crashed : List PassRecord → ℕ → RunOutcome
deriving DecidableEq

/-- Line 111: `upscaled_path = f"upscaled_{attempt+1}_{uploaded_file.name}"`,
with `k = attempt + 1` the 1-based pass index. -/
def passPath (name : String) (k : ℕ) : String :=
  "upscaled_" ++ toString k ++ "_" ++ name

/-- The upscaling loop, recursing on the number of remaining iterations
(`range(n_steps)` contributes `n_steps.toNat` iterations); `attempt` is the
0-based loop counter, `current` is `current_path`, `acc` the passes run so
far (most recent first).  A `.stopped`/`.crash` pass aborts the run with no
final artifact (`st.stop`, line 107); when the loop is exhausted the final
resize runs on `current_path`. -/
def runLoop (env : Env) (name : String) (targetSize : ℕ × ℕ) :
    ℕ → ℕ → String → List PassRecord → RunOutcome
  | 0, _, current, acc =>
    .finished acc.reverse (localResize current name targetSize)
  | remaining + 1, attempt, current, acc =>
    match runPass (env.polls attempt) env.download with
    | .success _ =>
      runLoop env name targetSize remaining (attempt + 1)
        (passPath name (attempt + 1))
        (⟨attempt + 1, current, passPath name (attempt + 1)⟩ :: acc)
    | .stopped => .failed acc.reverse (attempt + 1)
    | .crash => .crashed acc.reverse (attempt + 1)

/-- Lines 58-125: the whole per-upload run, starting from
`input_path = f"input_{uploaded_file.name}"`. -/
def orchestrate (env : Env) (nSteps : ℤ) (name : String)
    (targetSize : ℕ × ℕ) : RunOutcome :=
  runLoop env name targetSize nSteps.toNat 0 ("input_" ++ name) []

/-- The pass records a successful run of `count` passes produces, starting at
`current = cur` and loop counter `attempt`. -/
def passRecords (name : String) : String → ℕ → ℕ → List PassRecord
  | _, _, 0 => []
  | cur, attempt, count + 1 =>
    ⟨attempt + 1, cur, passPath name (attempt + 1)⟩ ::
      passRecords name (passPath name (attempt + 1)) (attempt + 1) count

/-- The path the final resize reads: `cur` when no pass ran, else the last
pass's output. -/
def lastPath (name cur : String) (attempt count : ℕ) : String :=
  if count = 0 then cur else passPath name (attempt + count)

/-- Each pass's input is the previous pass's output (the first pass's input
being the given start path). -/
def chainedFrom : List PassRecord → String → Bool
  | [], _ => true
  | r :: rest, cur => (r.inputPath == cur) && chainedFrom rest r.outputPath

def emptyEnv : Env :=
  { polls := fun _ _ => [], download := fun _ => { statusOk := true, content := [] } }

def okEnv : Env :=
  { polls := fun _ _ => [.str "http://r"]
    download := fun _ => { statusOk := true, content := [7] } }

def singleUrlPolls : ℕ → List CompletedItem := fun _ => [.str "http://r"]

def badDownload : String → DownloadResponse :=
  fun _ => { statusOk := false, content := [4, 0, 4] }

def latePolls : ℕ → List CompletedItem :=
  fun j => if j = 2 then [.str "http://late"] else []

/-! ### Theorems -/

/-- Characterisation of `⌈logb f x⌉` used for the step-planner claims: when
`1/f < x` it is the least nonnegative integer `k` with `x ≤ f ^ k`, and it is
`0` whenever additionally `x ≤ 1`. -/
theorem ceil_logb_isLeast (f x : ℝ) (hf : 1 < f) (hlow : 1 / f < x) :
    IsLeast {k : ℤ | 0 ≤ k ∧ x ≤ f ^ k} ⌈Real.logb f x⌉ ∧
    (x ≤ 1 → ⌈Real.logb f x⌉ = 0) := by
  have hf0 : (0 : ℝ) < f := lt_trans one_pos hf
  have hx : 0 < x := lt_trans (by positivity) hlow
  have hneg1 : (-1 : ℝ) < Real.logb f x := by
    have h1 : Real.logb f (1 / f) = -1 := by
      rw [one_div, Real.logb_inv, Real.logb_self_eq_one hf]
    have h2 := Real.logb_lt_logb hf (show (0 : ℝ) < 1 / f by positivity) hlow
    rw [h1] at h2
    exact h2
  have hge : 0 ≤ ⌈Real.logb f x⌉ := by
    have h3 : (-1 : ℤ) < ⌈Real.logb f x⌉ := Int.lt_ceil.mpr (by push_cast; exact hneg1)
    omega
  have hmem : x ≤ f ^ ⌈Real.logb f x⌉ := by
    have h1 : Real.logb f x ≤ ((⌈Real.logb f x⌉ : ℤ) : ℝ) := Int.le_ceil _
    have h2 := (Real.logb_le_iff_le_rpow hf hx).mp h1
    rwa [Real.rpow_intCast] at h2
  refine ⟨⟨⟨hge, hmem⟩, ?_⟩, ?_⟩
  · rintro k ⟨-, hk⟩
    refine Int.ceil_le.mpr ?_
    rw [Real.logb_le_iff_le_rpow hf hx, Real.rpow_intCast]
    exact hk
  · intro hx1
    have hle : ⌈Real.logb f x⌉ ≤ 0 :=
      Int.ceil_le.mpr (by push_cast; exact Real.logb_nonpos hf (le_of_lt hx) hx1)
    omega

/-- At source 1000×1000 and target 250×250 with per-call factor 4 the planner
computes `⌈logb 4 (1/4)⌉ = -1`. -/
theorem nsteps_quarter : n_steps 1000 1000 250 250 4 = -1 := by
  have h1 : scale_factor 1000 1000 250 250 = (4 : ℝ)⁻¹ := by
    unfold scale_factor
    norm_num
  unfold n_steps
  rw [h1, Real.logb_inv, Real.logb_self_eq_one (show (1 : ℝ) < 4 by norm_num)]
  rw [show (-(1 : ℝ)) = ((-1 : ℤ) : ℝ) by norm_num, Int.ceil_intCast]

/-- C1 (counterexample): the claim says `stepCount = 0` whenever
`scaleFactor ≤ 1` and `stepCount ≥ 0` always; but at source 1000×1000,
target 250×250, per-call factor 4 the code computes
`n_steps = ⌈logb 4 (1/4)⌉ = -1 ≠ 0`. -/
theorem C1_counterexample :
    scale_factor 1000 1000 250 250 ≤ 1 ∧
    n_steps 1000 1000 250 250 4 = -1 ∧ (-1 : ℤ) ≠ 0 := by
  refine ⟨?_, nsteps_quarter, by decide⟩
  unfold scale_factor
  norm_num

/-- C1 (amended): for positive dimensions and `perCallFactor > 1`, provided
`scaleFactor > 1/perCallFactor`, the planner's `n_steps` is the smallest
integer `k ≥ 0` with `perCallFactor ^ k ≥ scaleFactor`, and it is `0`
whenever additionally `scaleFactor ≤ 1`; without that proviso `n_steps` can
be negative (no flooring at zero is applied). -/
theorem C1_step_planner (sw sh tw th f : ℝ) (hsw : 0 < sw) (hsh : 0 < sh)
    (htw : 0 < tw) (hth : 0 < th) (hf : 1 < f)
    (hlow : 1 / f < scale_factor sw sh tw th) :
    IsLeast {k : ℤ | 0 ≤ k ∧ scale_factor sw sh tw th ≤ f ^ k}
      (n_steps sw sh tw th f) ∧
    (scale_factor sw sh tw th ≤ 1 → n_steps sw sh tw th f = 0) := by
  unfold n_steps
  exact ceil_logb_isLeast f (scale_factor sw sh tw th) hf hlow

/-- Witness for C1 (amended), at the spec's scenario A: source 1000×1000,
target 3800×3800, per-call factor 4. -/
theorem C1_witness :
    IsLeast {k : ℤ | 0 ≤ k ∧ scale_factor 1000 1000 3800 3800 ≤ (4 : ℝ) ^ k}
      (n_steps 1000 1000 3800 3800 4) ∧
    (scale_factor 1000 1000 3800 3800 ≤ 1 → n_steps 1000 1000 3800 3800 4 = 0) :=
  C1_step_planner 1000 1000 3800 3800 4 (by norm_num) (by norm_num) (by norm_num)
    (by norm_num) (by norm_num)
    (by unfold scale_factor; rw [max_self]; norm_num)

theorem hexDigitChar_isLowerHex : ∀ n, n < 16 → isLowerHexChar (hexDigitChar n) = true := by
  decide

theorem token_hex_length (bytes : List ℕ) :
    (token_hex bytes).length = 2 * bytes.length := by
  unfold token_hex
  show ((bytes.map byteToHexChars).flatten).length = 2 * bytes.length
  induction bytes with
  | nil => rfl
  | cons b t ih =>
    rw [List.map_cons, List.flatten_cons, List.length_append, ih]
    show 2 + 2 * t.length = 2 * (t.length + 1)
    omega

theorem token_hex_isHex32 (bytes : List ℕ) (h : bytes.length = 16) :
    isHex32 (token_hex bytes) = true := by
  unfold isHex32
  simp only [Bool.and_eq_true, beq_iff_eq]
  rw [token_hex_length, h]
  refine ⟨by norm_num, ?_⟩
  show ((bytes.map byteToHexChars).flatten).all isLowerHexChar = true
  rw [List.all_eq_true]
  intro c hc
  rw [List.mem_flatten] at hc
  obtain ⟨l, hl, hcl⟩ := hc
  rw [List.mem_map] at hl
  obtain ⟨b, -, rfl⟩ := hl
  unfold byteToHexChars at hcl
  rw [List.mem_cons, List.mem_singleton] at hcl
  rcases hcl with rfl | rfl
  · exact hexDigitChar_isLowerHex _ (Nat.mod_lt _ (by norm_num))
  · exact hexDigitChar_isLowerHex _ (Nat.mod_lt _ (by norm_num))

theorem lookupKey_dictInsert_self (m : List (String × String)) (k v : String) :
    lookupKey (dictInsert m k v) k = some v := by
  induction m with
  | nil => simp [dictInsert, lookupKey]
  | cons p t ih =>
    by_cases hp : p.1 = k
    · simp [dictInsert, lookupKey, hp]
    · simp only [dictInsert, hp, if_false]
      rw [lookupKey, if_neg hp]
      exact ih

theorem lookupKey_dictInsert_ne (m : List (String × String)) (k v k' : String)
    (hne : k' ≠ k) : lookupKey (dictInsert m k v) k' = lookupKey m k' := by
  have hkk : k ≠ k' := fun h => hne h.symm
  induction m with
  | nil => simp [dictInsert, lookupKey, hkk]
  | cons p t ih =>
    by_cases hp : p.1 = k
    · simp only [dictInsert, hp, if_true, if_pos rfl]
      rw [lookupKey, if_neg hkk, lookupKey, hp, if_neg hkk]
    · simp only [dictInsert, hp, if_false]
      rw [lookupKey, lookupKey]
      by_cases hq : p.1 = k'
      · rw [if_pos hq, if_pos hq]
      · rw [if_neg hq, if_neg hq]
        exact ih

theorem get_or_create_eq_none (file : MapFile) (b : List ℕ) (name : String)
    (hlk : lookupKey (loadMapping file) name = none) :
    get_or_create_client_id_for_image file b name
      = (token_hex b, .stored (dictInsert (loadMapping file) name (token_hex b))) := by
  unfold get_or_create_client_id_for_image
  rw [hlk]

theorem get_or_create_eq_some32 (file : MapFile) (b : List ℕ) (name v : String)
    (hlk : lookupKey (loadMapping file) name = some v) (h32 : v.length = 32) :
    get_or_create_client_id_for_image file b name = (v, file) := by
  unfold get_or_create_client_id_for_image
  simp only [hlk]
  rw [if_pos h32]

theorem get_or_create_eq_some_short (file : MapFile) (b : List ℕ) (name v : String)
    (hlk : lookupKey (loadMapping file) name = some v) (h32 : v.length ≠ 32) :
    get_or_create_client_id_for_image file b name
      = (token_hex b, .stored (dictInsert (loadMapping file) name (token_hex b))) := by
  unfold get_or_create_client_id_for_image
  simp only [hlk]
  rw [if_neg h32]

/-- C9: `get_or_create_client_id_for_image` never fails because the persisted
mapping file is missing, empty, or unparseable: each case behaves exactly as
an empty mapping, after which a fresh identifier is generated, stored, and
returned. -/
theorem C9_bad_file_as_empty (b : List ℕ) (name : String) :
    get_or_create_client_id_for_image .missing b name
        = get_or_create_client_id_for_image (.stored []) b name ∧
      get_or_create_client_id_for_image .emptyFile b name
        = get_or_create_client_id_for_image (.stored []) b name ∧
      get_or_create_client_id_for_image .corrupt b name
        = get_or_create_client_id_for_image (.stored []) b name ∧
      get_or_create_client_id_for_image (.stored []) b name
        = (token_hex b, .stored [(name, token_hex b)]) :=
  ⟨rfl, rfl, rfl, rfl⟩

/-- C8: calling `getOrCreate(name)` twice in sequence (the second call reading
the store state the first call left behind) returns the same client
identifier both times; the first call's fresh bytes are the 16 bytes
`secrets.token_hex(16)` draws. -/
theorem C8_stable_across_calls (file : MapFile) (b1 b2 : List ℕ) (name : String)
    (h : b1.length = 16) :
    (get_or_create_client_id_for_image
        (get_or_create_client_id_for_image file b1 name).2 b2 name).1
      = (get_or_create_client_id_for_image file b1 name).1 := by
  have hth : (token_hex b1).length = 32 := by rw [token_hex_length, h]
  rcases hlk : lookupKey (loadMapping file) name with - | v
  · rw [get_or_create_eq_none file b1 name hlk]
    show (get_or_create_client_id_for_image
        (.stored (dictInsert (loadMapping file) name (token_hex b1))) b2 name).1
      = token_hex b1
    rw [get_or_create_eq_some32 _ b2 name _
      (by simp only [loadMapping]; exact lookupKey_dictInsert_self _ _ _) hth]
  · by_cases h32 : v.length = 32
    · rw [get_or_create_eq_some32 file b1 name v hlk h32]
      show (get_or_create_client_id_for_image file b2 name).1 = v
      rw [get_or_create_eq_some32 file b2 name v hlk h32]
    · rw [get_or_create_eq_some_short file b1 name v hlk h32]
      show (get_or_create_client_id_for_image
          (.stored (dictInsert (loadMapping file) name (token_hex b1))) b2 name).1
        = token_hex b1
      rw [get_or_create_eq_some32 _ b2 name _
        (by simp only [loadMapping]; exact lookupKey_dictInsert_self _ _ _) hth]

/-- Witness for C8 at a concrete store and concrete fresh bytes. -/
theorem C8_witness :
    (get_or_create_client_id_for_image
        (get_or_create_client_id_for_image .missing (List.replicate 16 0) "img.png").2
        (List.replicate 16 1) "img.png").1
      = (get_or_create_client_id_for_image .missing (List.replicate 16 0) "img.png").1 :=
  C8_stable_across_calls .missing (List.replicate 16 0) (List.replicate 16 1)
    "img.png" rfl

/-- C4 (counterexample): the code reuses any stored value of length 32
without checking it is hexadecimal, so `getOrCreate` can return a value that
does not match `^[0-9a-f]{32}$`. -/
theorem C4_counterexample :
    (get_or_create_client_id_for_image
        (.stored [("img.png", "zzzzzzzzzzzzzzzzzzzzzzzzzzzzzzzz")])
        (List.replicate 16 0) "img.png").1
      = "zzzzzzzzzzzzzzzzzzzzzzzzzzzzzzzz" ∧
    isHex32 "zzzzzzzzzzzzzzzzzzzzzzzzzzzzzzzz" = false := by
  exact ⟨rfl, by decide⟩

/-- C4 (amended): a stored value is reused precisely when it has exactly 32
characters — its being hexadecimal is never checked; when no such value is
stored, the returned identifier is `token_hex` of the 16 fresh random bytes
and always matches `^[0-9a-f]{32}$`. -/
theorem C4_identifier_format (file : MapFile) (b : List ℕ) (name : String)
    (hb : b.length = 16) :
    (∀ v, lookupKey (loadMapping file) name = some v → v.length = 32 →
      get_or_create_client_id_for_image file b name = (v, file)) ∧
    (lookupKey (loadMapping file) name = none ∨
        (∃ v, lookupKey (loadMapping file) name = some v ∧ v.length ≠ 32) →
      (get_or_create_client_id_for_image file b name).1 = token_hex b ∧
        isHex32 (token_hex b) = true) := by
  refine ⟨fun v hlk h32 => get_or_create_eq_some32 file b name v hlk h32,
    fun hcase => ⟨?_, token_hex_isHex32 b hb⟩⟩
  rcases hcase with hnone | ⟨v, hlk, h32⟩
  · rw [get_or_create_eq_none file b name hnone]
  · rw [get_or_create_eq_some_short file b name v hlk h32]

/-- Witness for C4 (amended): a missing store yields a fresh, well-formed
identifier. -/
theorem C4_witness :
    (get_or_create_client_id_for_image .missing (List.replicate 16 0) "a.png").1
        = token_hex (List.replicate 16 0) ∧
      isHex32 (token_hex (List.replicate 16 0)) = true :=
  (C4_identifier_format .missing (List.replicate 16 0) "a.png" rfl).2 (Or.inl rfl)

/-- C10: `getOrCreate` modifies the mapping at most at the key `imageName`:
with a stored 32-character value it performs no write (the file state is
returned untouched — in the source, control returns before any write);
otherwise it writes back the loaded mapping updated at `imageName` only,
every other key's binding preserved unchanged. -/
theorem C10_frame (m : List (String × String)) (b : List ℕ) (name : String) :
    (∀ v, lookupKey m name = some v → v.length = 32 →
      get_or_create_client_id_for_image (.stored m) b name = (v, .stored m)) ∧
    (lookupKey m name = none ∨ (∃ v, lookupKey m name = some v ∧ v.length ≠ 32) →
      (get_or_create_client_id_for_image (.stored m) b name).2
          = .stored (dictInsert m name (token_hex b)) ∧
        lookupKey (dictInsert m name (token_hex b)) name = some (token_hex b) ∧
        ∀ k, k ≠ name → lookupKey (dictInsert m name (token_hex b)) k = lookupKey m k) := by
  constructor
  · intro v hlk h32
    exact get_or_create_eq_some32 (.stored m) b name v hlk h32
  · intro hcase
    refine ⟨?_, lookupKey_dictInsert_self m name (token_hex b),
      fun k hk => lookupKey_dictInsert_ne m name (token_hex b) k hk⟩
    rcases hcase with hnone | ⟨v, hlk, h32⟩
    · rw [get_or_create_eq_none (.stored m) b name hnone]
      rfl
    · rw [get_or_create_eq_some_short (.stored m) b name v hlk h32]
      rfl

/-- Witness for C10: updating a short-valued key leaves the other key's
binding unchanged. -/
theorem C10_witness :
    (get_or_create_client_id_for_image
        (.stored [("other", "v"), ("a.png", "x")]) (List.replicate 16 2) "a.png").2
        = .stored (dictInsert [("other", "v"), ("a.png", "x")] "a.png"
            (token_hex (List.replicate 16 2))) ∧
      lookupKey (dictInsert [("other", "v"), ("a.png", "x")] "a.png"
          (token_hex (List.replicate 16 2))) "other"
        = lookupKey [("other", "v"), ("a.png", "x")] "other" := by
  have h := (C10_frame [("other", "v"), ("a.png", "x")] (List.replicate 16 2)
    "a.png").2 (Or.inr ⟨"x", rfl, by decide⟩)
  exact ⟨h.1, h.2.2 "other" (by decide)⟩

theorem firstNonEmpty_none (polls : ℕ → List CompletedItem) :
    ∀ budget start, (∀ j, start ≤ j → j < start + budget → polls j = []) →
      firstNonEmpty polls budget start = none := by
  intro budget
  induction budget with
  | zero => intro start _; rfl
  | succ b ih =>
    intro start h
    have he : (polls start).isEmpty = true := by
      rw [h start le_rfl (by omega)]
      rfl
    rw [firstNonEmpty, if_pos he]
    exact ih (start + 1) (fun j h1 h2 => h j (by omega) (by omega))

theorem firstNonEmpty_at (polls : ℕ → List CompletedItem) :
    ∀ budget start i, start ≤ i → i < start + budget →
      (∀ j, start ≤ j → j < i → polls j = []) → (polls i).isEmpty = false →
      firstNonEmpty polls budget start = some i := by
  intro budget
  induction budget with
  | zero => intro start i h1 h2 _ _; omega
  | succ b ih =>
    intro start i h1 h2 h3 h4
    by_cases hsi : start = i
    · subst hsi
      rw [firstNonEmpty, h4, if_neg Bool.false_ne_true]
    · have hs : polls start = [] := h3 start le_rfl (by omega)
      have he : (polls start).isEmpty = true := by rw [hs]; rfl
      rw [firstNonEmpty, if_pos he]
      exact ih (start + 1) i (by omega) (by omega)
        (fun j hj1 hj2 => h3 j (by omega) hj2) h4

theorem runPass_eq (polls : ℕ → List CompletedItem)
    (dl : String → DownloadResponse) (j : ℕ) (item : CompletedItem)
    (hfind : findPollIdx polls = some j)
    (hlast : (polls j).getLast? = some item) :
    runPass polls dl
      = match extractUrl item with
        | .strUrl s => if s = "" then .stopped else .success (dl s).content
        | .dictVal d => if d.isEmpty then .stopped else .crash := by
  unfold runPass
  simp only [hfind, hlast]

theorem passRecords_length (name : String) :
    ∀ count cur attempt, (passRecords name cur attempt count).length = count := by
  intro count
  induction count with
  | zero => intro cur attempt; rfl
  | succ c ih =>
    intro cur attempt
    rw [passRecords, List.length_cons, ih]

theorem passRecords_chained (name : String) :
    ∀ count cur attempt, chainedFrom (passRecords name cur attempt count) cur = true := by
  intro count
  induction count with
  | zero => intro cur attempt; rfl
  | succ c ih =>
    intro cur attempt
    rw [passRecords, chainedFrom]
    show ((cur == cur) && chainedFrom (passRecords name (passPath name (attempt + 1))
      (attempt + 1) c) (passPath name (attempt + 1))) = true
    rw [beq_self_eq_true, Bool.true_and]
    exact ih (passPath name (attempt + 1)) (attempt + 1)

theorem runLoop_success_spec (env : Env) (name : String) (ts : ℕ × ℕ) :
    ∀ (r attempt : ℕ) (cur : String) (acc : List PassRecord),
      (∀ k, attempt ≤ k → k < attempt + r →
        ∃ c, runPass (env.polls k) env.download = .success c) →
      runLoop env name ts r attempt cur acc
        = .finished (acc.reverse ++ passRecords name cur attempt r)
            (localResize (lastPath name cur attempt r) name ts) := by
  intro r
  induction r with
  | zero =>
    intro attempt cur acc _
    rw [runLoop]
    rw [show passRecords name cur attempt 0 = [] from rfl, List.append_nil]
    rw [show lastPath name cur attempt 0 = cur from rfl]
  | succ r ih =>
    intro attempt cur acc h
    obtain ⟨c, hc⟩ := h attempt le_rfl (by omega)
    rw [runLoop, hc]
    show runLoop env name ts r (attempt + 1) (passPath name (attempt + 1))
        (⟨attempt + 1, cur, passPath name (attempt + 1)⟩ :: acc)
      = .finished (acc.reverse ++ passRecords name cur attempt (r + 1))
          (localResize (lastPath name cur attempt (r + 1)) name ts)
    rw [ih (attempt + 1) (passPath name (attempt + 1))
      (⟨attempt + 1, cur, passPath name (attempt + 1)⟩ :: acc)
      (fun k h1 h2 => h k (by omega) (by omega))]
    congr 1
    · rw [List.reverse_cons, List.append_assoc]
      rfl
    · congr 1
      unfold lastPath
      by_cases hr : r = 0
      · subst hr
        norm_num
      · rw [if_neg hr, if_neg (show ¬(r + 1 = 0) by omega)]
        show passPath name (attempt + 1 + r) = passPath name (attempt + (r + 1))
        congr 1
        omega

theorem runPass_eq_inner (polls : ℕ → List CompletedItem)
    (dl : String → DownloadResponse) (j : ℕ)
    (hfind : findPollIdx polls = some j) :
    runPass polls dl
      = match (polls j).getLast? with
        | none => .stopped
        | some item =>
          match extractUrl item with
          | .strUrl s => if s = "" then .stopped else .success (dl s).content
          | .dictVal d => if d.isEmpty then .stopped else .crash := by
  unfold runPass
  simp only [hfind]

theorem runLoop_finished_shape (env : Env) (name : String) (ts : ℕ × ℕ) :
    ∀ (r attempt : ℕ) (cur : String) (acc ps : List PassRecord) (a : SavedImage),
      runLoop env name ts r attempt cur acc = .finished ps a →
      ∃ c, a = localResize c name ts := by
  intro r
  induction r with
  | zero =>
    intro attempt cur acc ps a h
    rw [runLoop] at h
    injection h with h1 h2
    exact ⟨cur, h2.symm⟩
  | succ r ih =>
    intro attempt cur acc ps a h
    rw [runLoop] at h
    rcases hp : runPass (env.polls attempt) env.download with c | - | -
    · rw [hp] at h
      exact ih (attempt + 1) (passPath name (attempt + 1)) _ ps a h
    · rw [hp] at h
      exact RunOutcome.noConfusion h
    · rw [hp] at h
      exact RunOutcome.noConfusion h

/-- C2 (counterexample): the claim says the pass fails with `UpstreamError`
when the download response is non-success or the completed-item data is
malformed; but the source never inspects `response` status — a non-success
response's body is written and the pass succeeds — and a malformed completed
record (a non-empty dict without a `url` field) reaches `requests.get` as a
dict and raises an unhandled exception, not a clean failure. -/
theorem C2_counterexample :
    (badDownload "http://r").statusOk = false ∧
    runPass singleUrlPolls badDownload = .success [4, 0, 4] ∧
    runPass (fun _ => [.obj [("status", "done")]]) badDownload = .crash :=
  ⟨rfl, rfl, rfl⟩

/-- C2 (amended): `runPass` never validates the download: once the first
non-empty poll's last completed entry yields a non-empty URL string, the pass
succeeds with whatever content the download returns, success or not; a
completed record without a `url` field is passed through raw — a non-empty
one crashes at `requests.get`, an empty one (like an empty URL string) is
reported as the timeout error. -/
theorem C2_download_never_validated (polls : ℕ → List CompletedItem)
    (dl : String → DownloadResponse) (j : ℕ) (item : CompletedItem)
    (hfind : findPollIdx polls = some j)
    (hlast : (polls j).getLast? = some item) :
    (∀ s, extractUrl item = .strUrl s → s ≠ "" →
      runPass polls dl = .success (dl s).content) ∧
    (∀ d, extractUrl item = .dictVal d → d ≠ [] → runPass polls dl = .crash) ∧
    (∀ s, extractUrl item = .strUrl s → s = "" → runPass polls dl = .stopped) ∧
    (∀ d, extractUrl item = .dictVal d → d = [] → runPass polls dl = .stopped) := by
  have hrp := runPass_eq polls dl j item hfind hlast
  refine ⟨fun s hs hne => ?_, fun d hd hne => ?_, fun s hs he => ?_,
    fun d hd he => ?_⟩
  · rw [hrp, hs]
    exact if_neg hne
  · rw [hrp, hd]
    have hemp : d.isEmpty = false := by
      cases d
      · exact absurd rfl hne
      · rfl
    exact if_neg (fun hcon => Bool.false_ne_true (hemp.symm.trans hcon))
  · rw [hrp, hs]
    exact if_pos he
  · rw [hrp, hd]
    exact if_pos (by rw [he]; rfl)

/-- Witness for C2 (amended): a bare-string completion with a failing
download still yields success with the response body. -/
theorem C2_witness :
    runPass singleUrlPolls badDownload
      = .success (badDownload "http://r").content := by
  have h := C2_download_never_validated singleUrlPolls badDownload 0
    (.str "http://r") rfl rfl
  exact h.1 "http://r" rfl (by decide)

/-- C3: if no poll of the 60-attempt budget reports a completed entry, the
pass stops with the timeout error — `st.stop` on line 107 runs before the
download line, so no download occurs — the loop body does not retry, and the
run ends with no final artifact.  (The 10-time-unit spacing is
`time.sleep(10)`; only the attempt count is observable in this embedding.) -/
theorem C3_timeout_no_artifact (env : Env) (name : String) (ts : ℕ × ℕ)
    (k fuel : ℕ) (cur : String) (acc : List PassRecord)
    (h : ∀ j, j < 60 → env.polls k j = []) :
    runPass (env.polls k) env.download = .stopped ∧
    runLoop env name ts (fuel + 1) k cur acc = .failed acc.reverse (k + 1) ∧
    ∀ ps art, runLoop env name ts (fuel + 1) k cur acc ≠ .finished ps art := by
  have hfind : findPollIdx (env.polls k) = none :=
    firstNonEmpty_none (env.polls k) 60 0 (fun j h1 h2 => h j (by omega))
  have hrp : runPass (env.polls k) env.download = .stopped := by
    unfold runPass
    rw [hfind]
  have hloop : runLoop env name ts (fuel + 1) k cur acc
      = .failed acc.reverse (k + 1) := by
    rw [runLoop, hrp]
  exact ⟨hrp, hloop, fun ps art hcon => by
    rw [hloop] at hcon
    exact RunOutcome.noConfusion hcon⟩

/-- Witness for C3: the all-empty environment times out the first pass and
fails the run. -/
theorem C3_witness :
    runPass (emptyEnv.polls 0) emptyEnv.download = .stopped ∧
    runLoop emptyEnv "a.jpg" (5, 5) 1 0 "input_a.jpg" [] = .failed [] 1 := by
  have h := C3_timeout_no_artifact emptyEnv "a.jpg" (5, 5) 0 0 "input_a.jpg" []
    (fun j hj => rfl)
  exact ⟨h.1, h.2.1⟩

/-- C5: at the first poll whose completed list is non-empty the loop stops
polling (the outcome does not depend on later polls), and the URL is taken
from the last completed entry, accepting a bare string or a record with a
`url` field; `runPass` receives no submission identity at all, so nothing
ties the chosen entry to the current submission. -/
theorem C5_first_completion_wins (polls : ℕ → List CompletedItem)
    (dl : String → DownloadResponse) (i : ℕ) (hi : i < 60)
    (hbefore : ∀ j, j < i → polls j = []) (hne : (polls i).isEmpty = false) :
    findPollIdx polls = some i ∧
    (∀ polls', (∀ j, j ≤ i → polls' j = polls j) →
      runPass polls' dl = runPass polls dl) ∧
    (∀ s, (polls i).getLast? = some (.str s) → s ≠ "" →
      runPass polls dl = .success (dl s).content) ∧
    (∀ fields u, (polls i).getLast? = some (.obj fields) →
      lookupKey fields "url" = some u → u ≠ "" →
      runPass polls dl = .success (dl u).content) := by
  have hfind : findPollIdx polls = some i :=
    firstNonEmpty_at polls 60 0 i (by omega) (by omega)
      (fun j h1 h2 => hbefore j h2) hne
  refine ⟨hfind, fun polls' hagree => ?_, fun s hlast hs => ?_,
    fun fields u hlast hurl hu => ?_⟩
  · have hfind' : findPollIdx polls' = some i :=
      firstNonEmpty_at polls' 60 0 i (by omega) (by omega)
        (fun j h1 h2 => by rw [hagree j (by omega)]; exact hbefore j h2)
        (by rw [hagree i le_rfl]; exact hne)
    rw [runPass_eq_inner polls' dl i hfind', runPass_eq_inner polls dl i hfind,
      hagree i le_rfl]
  · rw [runPass_eq polls dl i (.str s) hfind hlast]
    exact if_neg hs
  · rw [runPass_eq polls dl i (.obj fields) hfind hlast]
    have hext : extractUrl (.obj fields) = .strUrl u := by
      show (match lookupKey fields "url" with
        | some w => UrlVal.strUrl w
        | none => UrlVal.dictVal fields) = UrlVal.strUrl u
      rw [hurl]
    rw [hext]
    exact if_neg hu

/-- Witness for C5: completion first appears at poll index 2 and is used. -/
theorem C5_witness :
    findPollIdx latePolls = some 2 ∧
    runPass latePolls badDownload = .success (badDownload "http://late").content := by
  have h := C5_first_completion_wins latePolls badDownload 2 (by omega)
    (fun j hj => by unfold latePolls; rw [if_neg (by omega)]) rfl
  exact ⟨h.1, h.2.2.1 "http://late" rfl (by decide)⟩

/-- C6 (counterexample): the claim says the orchestrator runs exactly
`stepCount` passes; but `stepCount` can be negative (see
`C1_counterexample`), and `range(n_steps)` then runs zero passes, not
`stepCount` of them. -/
theorem C6_counterexample :
    n_steps 1000 1000 250 250 4 = -1 ∧
    orchestrate emptyEnv (-1) "a.jpg" (5, 5)
      = .finished [] (localResize ("input_" ++ "a.jpg") "a.jpg" (5, 5)) ∧
    (-1 : ℤ) ≠ 0 :=
  ⟨nsteps_quarter, rfl, by decide⟩

/-- C6 (amended): when every reached pass succeeds, the orchestrator runs
exactly `max(stepCount, 0)` sequential passes — exactly `stepCount` whenever
`stepCount ≥ 0` — pass 1 reading `input_<name>` and each later pass reading
the previous pass's output; when `stepCount ≤ 0` the loop body never runs,
so no remote submission occurs and the final resize reads the original
image. -/
theorem C6_pass_sequencing (env : Env) (nSteps : ℤ) (name : String)
    (ts : ℕ × ℕ)
    (h : ∀ k, k < nSteps.toNat →
      ∃ c, runPass (env.polls k) env.download = .success c) :
    orchestrate env nSteps name ts
      = .finished (passRecords name ("input_" ++ name) 0 nSteps.toNat)
          (localResize (lastPath name ("input_" ++ name) 0 nSteps.toNat)
            name ts) ∧
    (passRecords name ("input_" ++ name) 0 nSteps.toNat).length
      = nSteps.toNat ∧
    chainedFrom (passRecords name ("input_" ++ name) 0 nSteps.toNat)
      ("input_" ++ name) = true ∧
    (nSteps ≤ 0 →
      orchestrate env nSteps name ts
        = .finished [] (localResize ("input_" ++ name) name ts)) := by
  refine ⟨?_, passRecords_length name nSteps.toNat ("input_" ++ name) 0,
    passRecords_chained name nSteps.toNat ("input_" ++ name) 0, fun hle => ?_⟩
  · unfold orchestrate
    rw [runLoop_success_spec env name ts nSteps.toNat 0 ("input_" ++ name) []
      (fun k h1 h2 => h k (by omega))]
    rw [List.reverse_nil, List.nil_append]
  · unfold orchestrate
    rw [Int.toNat_of_nonpos hle]
    rfl

/-- Witness for C6 (amended): two successful passes. -/
theorem C6_witness :
    orchestrate okEnv 2 "a.jpg" (9, 9)
      = .finished (passRecords "a.jpg" ("input_" ++ "a.jpg") 0 (2 : ℤ).toNat)
          (localResize (lastPath "a.jpg" ("input_" ++ "a.jpg") 0 (2 : ℤ).toNat)
            "a.jpg" (9, 9)) ∧
    (passRecords "a.jpg" ("input_" ++ "a.jpg") 0 (2 : ℤ).toNat).length
      = (2 : ℤ).toNat ∧
    chainedFrom (passRecords "a.jpg" ("input_" ++ "a.jpg") 0 (2 : ℤ).toNat)
      ("input_" ++ "a.jpg") = true ∧
    ((2 : ℤ) ≤ 0 →
      orchestrate okEnv 2 "a.jpg" (9, 9)
        = .finished [] (localResize ("input_" ++ "a.jpg") "a.jpg" (9, 9))) :=
  C6_pass_sequencing okEnv 2 "a.jpg" (9, 9) (fun k hk => ⟨[7], rfl⟩)

/-- C7 (counterexample): the final artifact is not always lossily encoded —
`final_path` keeps the uploaded name's extension, so a `.png` upload is
saved as PNG, a lossless format. -/
theorem C7_counterexample :
    orchestrate emptyEnv 0 "a.png" (5, 5)
      = .finished [] (localResize ("input_" ++ "a.png") "a.png" (5, 5)) ∧
    (localResize ("input_" ++ "a.png") "a.png" (5, 5)).format = .png ∧
    isLossyFormat .png = false := by
  refine ⟨rfl, by decide, rfl⟩

/-- C7 (amended): every finished run's artifact is the image at the loop's
final `current_path` resampled to exactly the target pixel size with
`Image.LANCZOS`, tagged `(300, 300)` DPI, and saved to
`final_upscaled_<name>` whose encoding PIL derives from the original file's
extension — JPEG (lossy) for `.jpg`/`.jpeg` uploads but PNG (lossless) for
`.png` uploads; under successful passes that source is the last pass's
output (the original image when no pass runs). -/
theorem C7_final_resize (env : Env) (nSteps : ℤ) (name : String) (ts : ℕ × ℕ)
    (passes : List PassRecord) (art : SavedImage)
    (hrun : orchestrate env nSteps name ts = .finished passes art) :
    art.width = ts.1 ∧ art.height = ts.2 ∧ art.resample = .lanczos ∧
    art.dpi = (300, 300) ∧ art.savedPath = "final_upscaled_" ++ name ∧
    art.format = inferFormat ("final_upscaled_" ++ name) ∧
    ((∀ k, k < nSteps.toNat →
        ∃ c, runPass (env.polls k) env.download = .success c) →
      art.sourcePath = lastPath name ("input_" ++ name) 0 nSteps.toNat) := by
  obtain ⟨c, rfl⟩ := runLoop_finished_shape env name ts nSteps.toNat 0
    ("input_" ++ name) [] passes art hrun
  refine ⟨rfl, rfl, rfl, rfl, rfl, rfl, fun hsucc => ?_⟩
  have hs := runLoop_success_spec env name ts nSteps.toNat 0 ("input_" ++ name)
    [] (fun k h1 h2 => hsucc k (by omega))
  unfold orchestrate at hrun
  rw [hs] at hrun
  injection hrun with h1 h2
  rw [← h2]
  rfl

/-- Witness for C7 (amended): the no-pass run on a PNG upload. -/
theorem C7_witness :
    (localResize ("input_" ++ "b.png") "b.png" (7, 7)).width = 7 ∧
    (localResize ("input_" ++ "b.png") "b.png" (7, 7)).height = 7 ∧
    (localResize ("input_" ++ "b.png") "b.png" (7, 7)).resample = .lanczos ∧
    (localResize ("input_" ++ "b.png") "b.png" (7, 7)).dpi = (300, 300) ∧
    (localResize ("input_" ++ "b.png") "b.png" (7, 7)).savedPath
      = "final_upscaled_" ++ "b.png" ∧
    (localResize ("input_" ++ "b.png") "b.png" (7, 7)).format
      = inferFormat ("final_upscaled_" ++ "b.png") := by
  have h := C7_final_resize emptyEnv 0 "b.png" (7, 7) []
    (localResize ("input_" ++ "b.png") "b.png" (7, 7)) rfl
  exact ⟨h.1, h.2.1, h.2.2.1, h.2.2.2.1, h.2.2.2.2.1, h.2.2.2.2.2.1⟩

/-- Witness for C9: a missing store at concrete fresh bytes. -/
theorem C9_witness :
    get_or_create_client_id_for_image .missing (List.replicate 16 3) "w.png"
      = (token_hex (List.replicate 16 3),
          .stored [("w.png", token_hex (List.replicate 16 3))]) :=
  ((C9_bad_file_as_empty (List.replicate 16 3) "w.png").1).trans
    (C9_bad_file_as_empty (List.replicate 16 3) "w.png").2.2.2
